import Mathlib

/-!
Verification of the live quiz session engine of `src/socket/quizHandler.js`
(the explicit-lock variant). The JavaScript classes and functions are
shallowly embedded as pure Lean functions over explicit state:
JS `Map`s become insertion-ordered association lists, socket emissions
become an explicit `Event` list returned by each handler, `Date.now()`
becomes an explicit `now : Nat` argument, and the awaited database write in
`endQuiz` becomes an explicit `saveOk : Bool` flag (true = `quiz.save()`
resolved, false = it rejected and control jumped to the `catch`).
-/

namespace QuizEngine

/-- One question of a quiz definition (`quiz.questions[i]` in the source):
text, option strings, index of the correct option, and per-question time
limit in seconds. -/
structure Question where
  text : String
  options : List String
  correctIndex : Nat
  timeLimit : Nat
deriving Repr, DecidableEq

/-- The quiz definition document read from the store (`Quiz` model fields the
engine uses: `_id`, `groupId`, `createdBy`, `title`, `questions`). -/
structure Quiz where
  id : String
  groupId : String
  createdBy : String
  title : String
  questions : List Question
deriving Repr, DecidableEq

/-- The value stored in the per-participant `answers` map:
`{ selectedIndex, isCorrect, responseTimeMs }`. `selectedIndex` is an `Int`
because the JS value is an arbitrary integer until validated. -/
structure AnswerRecord where
  selectedIndex : Int
  isCorrect : Bool
  responseTimeMs : Nat
deriving Repr, DecidableEq

/-- Per-participant state: `{ userId, score, totalResponseTimeMs, answers }`.
The `answers` JS `Map<questionIndex, AnswerRecord>` is an insertion-ordered
association list. -/
structure Participant where
  userId : String
  score : Nat
  totalResponseTimeMs : Nat
  answers : List (Nat × AnswerRecord)
deriving Repr, DecidableEq

/-- A per-question stats entry `{ optionCounts, correctCount }` as stored in
`session.questionStats[idx]` by `closeQuestion`. -/
structure QuestionStats where
  optionCounts : List Nat
  correctCount : Nat
deriving Repr, DecidableEq

/-- One row of the final leaderboard built in `endQuiz`. -/
structure LeaderboardEntry where
  rank : Nat
  userId : String
  score : Nat
  totalResponseTimeMs : Nat
deriving Repr, DecidableEq

/-- The `QuizSession` class state. `participants` is the insertion-ordered
JS `Map<userId, participant>`; `questionTimer` is `true` when a deadline
timer handle is armed (non-null in JS). -/
structure QuizSession where
  quiz : Quiz
  quizId : String
  participants : List Participant
  currentQuestionIndex : Int
  questionStartedAt : Nat
  questionTimer : Bool
  questionClosed : Bool
  locked : Bool
  started : Bool
  questionStats : List (Nat × QuestionStats)
  creatorId : String
deriving Repr, DecidableEq

/-- Socket emissions of the quiz handler, unicast and broadcast alike. -/
inductive Event where
  | announced (quizId title groupId : String) (questionCount : Nat)
  | joined (quizId : String) (participantCount : Nat)
  | participantJoined (quizId userId : String) (participantCount : Nat)
  | lockedEvt (quizId : String) (participantCount : Nat) (participants : List String)
  | question (quizId : String) (questionIndex totalQuestions : Nat)
      (text : String) (options : List String) (timeLimitSeconds : Nat)
  | answerAck (quizId : String) (questionIndex : Nat)
  | scoreUpdate (quizId userId : String) (score totalResponseTimeMs : Nat)
  | questionResult (quizId : String) (questionIndex correctIndex : Nat)
      (optionCounts : List Nat) (correctCount : Nat)
  | ended (quizId : String) (leaderboard : List LeaderboardEntry)
  | error (message : String)
deriving Repr, DecidableEq

/-- `new QuizSession(quiz)` — the field initialisation of the constructor. -/
def mkSession (quiz : Quiz) : QuizSession :=
  { quiz := quiz
    quizId := quiz.id
    participants := []
    currentQuestionIndex := -1
    questionStartedAt := 0
    questionTimer := false
    questionClosed := false
    locked := false
    started := false
    questionStats := []
    creatorId := quiz.createdBy }

/-- `session.participants.get(userId)`. -/
def findParticipant (ps : List Participant) (userId : String) : Option Participant :=
  ps.find? (fun p => p.userId = userId)

/-- In-place mutation of one participant of the JS `Map` (keys are unique by
construction, so at most one entry is touched). -/
def updateParticipant (ps : List Participant) (userId : String)
    (f : Participant → Participant) : List Participant :=
  ps.map (fun p => if p.userId = userId then f p else p)

/-- `QuizSession.addParticipant(userId)` — insert-if-absent; returns `true`
iff the user was newly added. -/
def addParticipant (s : QuizSession) (userId : String) : QuizSession × Bool :=
  match findParticipant s.participants userId with
  | some _ => (s, false)
  | none =>
      ({ s with participants :=
          s.participants ++ [{ userId := userId, score := 0, totalResponseTimeMs := 0, answers := [] }] },
       true)

/-- `QuizSession.recordAnswer(userId, questionIndex, selectedIndex, responseTimeMs)`.
Returns the unchanged session and `none` where the JS returns `false`
(unknown user, duplicate answer, missing question); otherwise the updated
session and `some (isCorrect, correctIndex)`. -/
def recordAnswer (s : QuizSession) (userId : String) (questionIndex : Nat)
    (selectedIndex : Int) (responseTimeMs : Nat) :
    QuizSession × Option (Bool × Nat) :=
  match findParticipant s.participants userId with
  | none => (s, none)
  | some p =>
    if (p.answers.lookup questionIndex).isSome then (s, none)
    else
      match s.quiz.questions.get? questionIndex with
      | none => (s, none)
      | some q =>
        let isCorrect : Bool := selectedIndex = (q.correctIndex : Int)
        let rec_ : AnswerRecord :=
          { selectedIndex := selectedIndex, isCorrect := isCorrect, responseTimeMs := responseTimeMs }
        let upd : Participant → Participant := fun p0 =>
          let p1 := { p0 with answers := p0.answers ++ [(questionIndex, rec_)] }
          if isCorrect then
            { p1 with score := p1.score + 1,
                      totalResponseTimeMs := p1.totalResponseTimeMs + responseTimeMs }
          else p1
        ({ s with participants := updateParticipant s.participants userId upd },
         some (isCorrect, q.correctIndex))

/-- `QuizSession.isQuestionAnsweredByAll(questionIndex)` — `false` when the
participant map is empty, else true iff every participant holds a record for
the index. -/
def isQuestionAnsweredByAll (s : QuizSession) (questionIndex : Nat) : Bool :=
  if s.participants.length = 0 then false
  else s.participants.all (fun p => (p.answers.lookup questionIndex).isSome)

/-- `optionCounts[i]++` — bump one bucket of the tally (the index is always
in range at the call site thanks to the preceding bounds check). -/
def bump (l : List Nat) (i : Nat) : List Nat :=
  l.set i (l.getD i 0 + 1)

/-- The `for (const [, p] of session.participants)` tally loop of
`closeQuestion`: fold the record of each participant for the closing question
into `optionCounts` and `correctCount`, skipping absent or out-of-range
records. -/
def tallyLoop (questionIndex numOptions : Nat) :
    List Participant → List Nat → Nat → List Nat × Nat
  | [], counts, correct => (counts, correct)
  | p :: ps, counts, correct =>
    match p.answers.lookup questionIndex with
    | some ans =>
      if 0 ≤ ans.selectedIndex ∧ ans.selectedIndex < (numOptions : Int) then
        tallyLoop questionIndex numOptions ps (bump counts ans.selectedIndex.toNat)
          (if ans.isCorrect then correct + 1 else correct)
      else tallyLoop questionIndex numOptions ps counts correct
    | none => tallyLoop questionIndex numOptions ps counts correct

/-- The whole tally of `closeQuestion`, starting from
`new Array(q.options.length).fill(0)` and `correctCount = 0`. -/
def questionTally (ps : List Participant) (questionIndex numOptions : Nat) :
    List Nat × Nat :=
  tallyLoop questionIndex numOptions ps (List.replicate numOptions 0) 0

/-- `session.questionStats[idx] = v` — object-property assignment on the JS
stats object: overwrite when the key exists, append otherwise. -/
def setStats (l : List (Nat × QuestionStats)) (k : Nat) (v : QuestionStats) :
    List (Nat × QuestionStats) :=
  if l.any (fun p => p.1 = k) then
    l.map (fun p => if p.1 = k then (k, v) else p)
  else l ++ [(k, v)]

/-- `closeQuestion(io, session)` minus the scheduled advancement (the
`setTimeout` to the next question is modelled by the drivers below).
Returns the updated session and the emitted events. If the guard
`session.questionClosed` holds, nothing happens. The `none` branch of the
question lookup is unreachable while a question is active (the JS code
would throw reading `q.options` there, after having set the guard). -/
def closeQuestion (s : QuizSession) : QuizSession × List Event :=
  if s.questionClosed then (s, [])
  else
    let s1 := { s with questionClosed := true }
    match (if 0 ≤ s.currentQuestionIndex then
             s.quiz.questions.get? s.currentQuestionIndex.toNat else none) with
    | none => (s1, [])
    | some q =>
      let questionIndex := s.currentQuestionIndex.toNat
      let t := questionTally s.participants questionIndex q.options.length
      let stats : QuestionStats := { optionCounts := t.1, correctCount := t.2 }
      ({ s1 with questionStats := setStats s1.questionStats questionIndex stats },
       [Event.questionResult s.quizId questionIndex q.correctIndex t.1 t.2])

/-- The comparator used by the sort in `endQuiz`, as the induced total preorder:
`a` sorts no later than `b` iff `a` has the strictly higher score, or equal
scores and `a.totalResponseTimeMs ≤ b.totalResponseTimeMs`. -/
def lbLE (a b : Participant) : Prop :=
  b.score < a.score ∨ (b.score = a.score ∧ a.totalResponseTimeMs ≤ b.totalResponseTimeMs)

instance : DecidableRel lbLE := fun a b => by
  unfold lbLE; exact inferInstance

instance : IsTotal Participant lbLE := by
  constructor; intro a b; unfold lbLE; omega

instance : IsTrans Participant lbLE := by
  constructor; intro a b c; unfold lbLE; omega

/-- The `.map((p, idx) => ({ rank: idx + 1, ... }))` step of `endQuiz`,
written as explicit recursion carrying the running index. -/
def withRanks : Nat → List Participant → List LeaderboardEntry
  | _, [] => []
  | i, p :: ps =>
    { rank := i + 1, userId := p.userId, score := p.score,
      totalResponseTimeMs := p.totalResponseTimeMs } :: withRanks (i + 1) ps

/-- The `ranked` leaderboard of `endQuiz`: stable sort of the participants
by the comparator (JS `Array.prototype.sort` is stable, so the stable
`insertionSort` computes the same list), then 1-based ranks in order. -/
def rankParticipants (ps : List Participant) : List LeaderboardEntry :=
  withRanks 0 (List.insertionSort lbLE ps)

/-- The persisted per-question stats of the final snapshot: the
`quiz.questions.forEach` loop of `endQuiz` attaches `questionStats[idx]` to
question `idx` when present, leaving `q.stats` unset otherwise. -/
def persistedStats (s : QuizSession) : List (Option QuestionStats) :=
  (List.range s.quiz.questions.length).map (fun idx => s.questionStats.lookup idx)

/-- `endQuiz(io, session)` with the awaited `quiz.save()` modelled by
`saveOk`. Returns (emitted events, session evicted from the registry,
error logged). On `saveOk = false` the rejection propagates to the
`catch`, which only logs: the `quiz:ended` emit and the registry delete
are skipped. -/
def endQuiz (s : QuizSession) (saveOk : Bool) : List Event × Bool × Bool :=
  let ranked := rankParticipants s.participants
  if saveOk then ([Event.ended s.quizId ranked], true, false)
  else ([], false, true)

/-- `emitQuestion(io, session, questionIndex)`. When the index is past the
last question it finalises instead: the result is then
`(session, endQuiz events, some evicted)`. Otherwise it arms the state for
the question, emits `quiz:question`, arms the deadline timer, and returns
`none` in the third slot. -/
def emitQuestion (s : QuizSession) (questionIndex : Nat) (now : Nat) (saveOk : Bool) :
    QuizSession × List Event × Option Bool :=
  match s.quiz.questions.get? questionIndex with
  | none =>
    let r := endQuiz s saveOk
    (s, r.1, some r.2.1)
  | some q =>
    ({ s with currentQuestionIndex := (questionIndex : Int),
              questionStartedAt := now,
              questionClosed := false,
              started := true,
              questionTimer := true },
     [Event.question s.quizId questionIndex s.quiz.questions.length q.text q.options q.timeLimit],
     none)

/-- The deadline-timer callback armed in `emitQuestion`: null out the timer
handle, then close the question unless already closed. -/
def timerFire (s : QuizSession) : QuizSession × List Event :=
  let s1 := { s with questionTimer := false }
  if ¬s1.questionClosed then closeQuestion s1 else (s1, [])

/-- The `quiz:answer` handler body after session lookup, with `Date.now()`
passed as `now`. Guard order follows the source: `started`, active index,
membership, closed question, option-range validation, duplicate answer.
On acceptance it emits the ack and the live score update and, when every
admitted participant now holds an answer, cancels the deadline timer and
closes the question (early close). -/
def handleAnswer (s : QuizSession) (userId : String)
    (questionIndex selectedIndex : Int) (now : Nat) : QuizSession × List Event :=
  if ¬s.started then (s, [Event.error "Questions have not started yet."])
  else if s.currentQuestionIndex ≠ questionIndex then
    (s, [Event.error "Wrong question index — this question is not active."])
  else if (findParticipant s.participants userId).isNone then
    (s, [Event.error "You have not joined this quiz."])
  else if s.questionClosed then
    (s, [Event.error "Time is up for this question."])
  else
    let totalOptions : Nat :=
      match s.quiz.questions.get? s.currentQuestionIndex.toNat with
      | some q => q.options.length
      | none => 0
    if selectedIndex < 0 ∨ (totalOptions : Int) ≤ selectedIndex then
      (s, [Event.error ("selectedIndex must be between 0 and " ++
            toString ((totalOptions : Int) - 1) ++ ".")])
    else
      let responseTimeMs := now - s.questionStartedAt
      let r := recordAnswer s userId questionIndex.toNat selectedIndex responseTimeMs
      match r.2 with
      | none => (r.1, [Event.error "You have already answered this question."])
      | some _ =>
        let s1 := r.1
        let ack := Event.answerAck s.quizId questionIndex.toNat
        let scoreEvt :=
          match findParticipant s1.participants userId with
          | some p => [Event.scoreUpdate s.quizId userId p.score p.totalResponseTimeMs]
          | none => []
        if isQuestionAnsweredByAll s1 questionIndex.toNat ∧ ¬s1.questionClosed then
          let s2 := { s1 with questionTimer := false }
          let c := closeQuestion s2
          (c.1, ack :: scoreEvt ++ c.2)
        else (s1, ack :: scoreEvt)

/-- The `quiz:lock` handler body after session lookup. Guard order follows
the source: already-locked first, then authorization (creator, FACULTY or
ADMIN). On success: set `locked`, broadcast `quiz:locked` with the final
roster, and start the question sequence at index 0. -/
def handleLock (s : QuizSession) (userId role : String) (now : Nat) (saveOk : Bool) :
    QuizSession × List Event :=
  if s.locked then (s, [Event.error "Quiz is already locked and running."])
  else if userId ≠ s.creatorId ∧ role ≠ "FACULTY" ∧ role ≠ "ADMIN" then
    (s, [Event.error "Only the quiz creator, faculty, or admin can lock the quiz."])
  else
    let s1 := { s with locked := true }
    let roster := s1.participants.map (fun p => p.userId)
    let r := emitQuestion s1 0 now saveOk
    (r.1, Event.lockedEvt s.quizId roster.length roster :: r.2.1)

/-- `startQuizSession(quiz)`: the session registry (`activeSessions`) as an
insertion-ordered association list. A duplicate start signal for a quiz id
already present returns the registry unchanged and emits nothing; otherwise
the new session is registered and one `quiz:announced` event goes to the
group room. -/
def startQuizSession (reg : List (String × QuizSession)) (quiz : Quiz) :
    List (String × QuizSession) × List Event :=
  if (reg.lookup quiz.id).isSome then (reg, [])
  else
    (reg ++ [(quiz.id, mkSession quiz)],
     [Event.announced quiz.id quiz.title quiz.groupId quiz.questions.length])

/-- Driver for a run in which no answers arrive: from question `idx`
onwards, the deadline timer of each emitted question fires, the question closes,
and the between-questions pause advances to the next index, until
`emitQuestion` runs off the end and finalises. `fuel` bounds the recursion;
any `fuel > questions.length - idx` is enough. Returns all emitted events
and whether the session was evicted from the registry. -/
def runNoAnswers (saveOk : Bool) : Nat → QuizSession → Nat → List Event × Bool
  | 0, _, _ => ([], false)
  | fuel + 1, s, idx =>
    match emitQuestion s idx 0 saveOk with
    | (_, evs, some evicted) => (evs, evicted)
    | (s1, evs, none) =>
      let t := timerFire s1
      let rest := runNoAnswers saveOk fuel t.1 (idx + 1)
      (evs ++ t.2 ++ rest.1, rest.2)

/-- Recogniser for `quiz:question-result` broadcasts. -/
def Event.isQuestionResult : Event → Bool
  | Event.questionResult _ _ _ _ _ => true
  | _ => false

/-- Recogniser for `quiz:ended` broadcasts. -/
def Event.isEnded : Event → Bool
  | Event.ended _ _ => true
  | _ => false

/-- Number of stats entries stored under question index `k`. -/
def countKey (l : List (Nat × QuestionStats)) (k : Nat) : Nat :=
  l.countP (fun p => p.1 = k)

/-- Every answer ledger has pairwise-distinct question keys
(the JS `Map` cannot hold two records for one index). -/
def AnswersNodup (s : QuizSession) : Prop :=
  ∀ p ∈ s.participants, (p.answers.map Prod.fst).Nodup

instance (s : QuizSession) : Decidable (AnswersNodup s) := by
  unfold AnswersNodup
  exact List.decidableBAll _ _

/-! ### Association-list helper lemmas -/

theorem lookup_isSome_of_mem_keys {α β : Type} [BEq α] [LawfulBEq α]
    (l : List (α × β)) (k : α) (h : k ∈ l.map Prod.fst) : (l.lookup k).isSome := by
  induction l with
  | nil => simp at h
  | cons hd tl ih =>
    simp only [List.map_cons, List.mem_cons] at h
    by_cases hk : k = hd.1
    · simp [List.lookup, hk]
    · have : k ∈ tl.map Prod.fst := by
        rcases h with h | h
        · exact absurd h hk
        · exact h
      have hbeq : (k == hd.1) = false := by simp [hk]
      simpa [List.lookup, hbeq] using ih this

theorem mem_keys_of_lookup_isSome {α β : Type} [BEq α] [LawfulBEq α]
    (l : List (α × β)) (k : α) (h : (l.lookup k).isSome) : k ∈ l.map Prod.fst := by
  induction l with
  | nil => simp [List.lookup] at h
  | cons hd tl ih =>
    by_cases hk : k = hd.1
    · simp [hk]
    · have hbeq : (k == hd.1) = false := by simp [hk]
      simp only [List.lookup, hbeq] at h
      simp [ih h]

theorem lookup_append_self_isSome {α β : Type} [BEq α] [LawfulBEq α]
    (l : List (α × β)) (k : α) (v : β) : ((l ++ [(k, v)]).lookup k).isSome := by
  induction l with
  | nil => simp [List.lookup]
  | cons hd tl ih =>
    by_cases hk : k = hd.1
    · simp [List.lookup, hk]
    · have hbeq : (k == hd.1) = false := by simp [hk]
      simp [List.lookup, hbeq, ih]

/-! ### Characterisation lemmas for the session operations -/

theorem recordAnswer_reject_of_answered (s : QuizSession) (uid : String) (qi : Nat)
    (sel : Int) (rt : Nat) (p : Participant)
    (h1 : findParticipant s.participants uid = some p)
    (h2 : (p.answers.lookup qi).isSome = true) :
    recordAnswer s uid qi sel rt = (s, none) := by
  unfold recordAnswer
  rw [h1]
  simp [h2]

/-- The net effect of a successful `recordAnswer` on the submitting
participant, as a single update function (used to state the
characterisation lemma below). -/
def applyAnswer (qi : Nat) (sel : Int) (rt : Nat) (q : Question) :
    Participant → Participant := fun p0 =>
  { p0 with
    score := if sel = (q.correctIndex : Int) then p0.score + 1 else p0.score,
    totalResponseTimeMs :=
      if sel = (q.correctIndex : Int) then p0.totalResponseTimeMs + rt
      else p0.totalResponseTimeMs,
    answers := p0.answers ++ [(qi,
      { selectedIndex := sel,
        isCorrect := decide (sel = (q.correctIndex : Int)),
        responseTimeMs := rt })] }

theorem recordAnswer_success_eq (s : QuizSession) (uid : String) (qi : Nat)
    (sel : Int) (rt : Nat) (p : Participant) (q : Question)
    (h1 : findParticipant s.participants uid = some p)
    (h2 : (p.answers.lookup qi).isSome = false)
    (hq : s.quiz.questions.get? qi = some q) :
    recordAnswer s uid qi sel rt =
      ({ s with participants := updateParticipant s.participants uid (applyAnswer qi sel rt q) },
       some (decide (sel = (q.correctIndex : Int)), q.correctIndex)) := by
  unfold recordAnswer
  rw [h1]
  simp only [h2, Bool.false_eq_true, if_false, hq]
  refine Prod.ext ?_ rfl
  simp only [updateParticipant]
  refine congrArg (fun ps => { s with participants := ps }) ?_
  refine List.map_congr_left ?_
  intro p0 _
  by_cases hc : sel = (q.correctIndex : Int) <;> simp [hc, applyAnswer]

theorem findParticipant_update_self (ps : List Participant) (uid : String)
    (f : Participant → Participant) (hf : ∀ p, (f p).userId = p.userId) :
    findParticipant (updateParticipant ps uid f) uid = (findParticipant ps uid).map f := by
  induction ps with
  | nil => rfl
  | cons hd tl ih =>
    by_cases h : hd.userId = uid
    · simp [findParticipant, updateParticipant, List.find?_cons, h, hf]
    · simp only [findParticipant, updateParticipant, List.map_cons] at ih ⊢
      simp [List.find?_cons, h, ih]

/-! ### Concrete fixtures for witnesses -/

/-- A three-option question whose correct option is index 1. -/
def exQ1 : Question :=
  { text := "2+2?", options := ["3", "4", "5"], correctIndex := 1, timeLimit := 10 }

/-- A two-option question whose correct option is index 0. -/
def exQ2 : Question :=
  { text := "capital of France?", options := ["Paris", "London"], correctIndex := 0, timeLimit := 5 }

/-- A two-question quiz definition. -/
def exQuiz : Quiz :=
  { id := "quiz-1", groupId := "group-1", createdBy := "creator-1", title := "Demo",
    questions := [exQ1, exQ2] }

/-- A participant who already answered question 0 (correctly, in 700 ms). -/
def exAnswered : Participant :=
  { userId := "alice", score := 1, totalResponseTimeMs := 700,
    answers := [(0, { selectedIndex := 1, isCorrect := true, responseTimeMs := 700 })] }

/-- A participant who has not answered anything yet. -/
def exFresh : Participant :=
  { userId := "bob", score := 0, totalResponseTimeMs := 0, answers := [] }

/-- A locked running session in the middle of question 0, alice answered,
bob still pending. -/
def exSession : QuizSession :=
  { quiz := exQuiz, quizId := "quiz-1", participants := [exAnswered, exFresh],
    currentQuestionIndex := 0, questionStartedAt := 1000, questionTimer := true,
    questionClosed := false, locked := true, started := true, questionStats := [],
    creatorId := "creator-1" }

/-- The open lobby of `exQuiz` before the lock: alice and bob admitted,
no question running yet. -/
def exLobby : QuizSession :=
  { quiz := exQuiz, quizId := "quiz-1",
    participants :=
      [{ userId := "alice", score := 0, totalResponseTimeMs := 0, answers := [] },
       { userId := "bob", score := 0, totalResponseTimeMs := 0, answers := [] }],
    currentQuestionIndex := -1, questionStartedAt := 0, questionTimer := false,
    questionClosed := false, locked := false, started := false, questionStats := [],
    creatorId := "creator-1" }

/-! ### Claims -/

/-- C1: the source contradicts this claim. In `endQuiz` the `quiz:ended`
emit is sequenced after `await quiz.save()` inside one `try` block, so a
rejected save jumps to the `catch`, which only logs: no retry happens, but
the final-leaderboard broadcast is also skipped (and the session is not
evicted). This theorem evaluates both outcomes: with a failed write the
event list is empty (no `quiz:ended`), with a successful write the single
`quiz:ended` broadcast carries the leaderboard. -/
theorem endQuiz_failed_save_skips_ended_broadcast :
    (∀ s : QuizSession, endQuiz s false = ([], false, true)) ∧
    (∀ s : QuizSession, endQuiz s true =
      ([Event.ended s.quizId (rankParticipants s.participants)], true, false)) :=
  ⟨fun _ => rfl, fun _ => rfl⟩

/-- C2: at most one AnswerRecord per (participant, questionIndex). A second
`recordAnswer` for a pair that already holds a record returns `false` and
leaves the session — score, totalResponseTimeMs, ledger — unchanged; the
ledger keys stay pairwise distinct across any `recordAnswer` call; and the
`quiz:answer` handler turns the duplicate into the "already answered"
rejection with the session unchanged. -/
theorem answer_recorded_at_most_once :
    (∀ (s : QuizSession) (uid : String) (qi : Nat) (sel : Int) (rt : Nat) (p : Participant),
        findParticipant s.participants uid = some p →
        (p.answers.lookup qi).isSome = true →
        recordAnswer s uid qi sel rt = (s, none)) ∧
    (∀ (s : QuizSession) (uid : String) (qi : Nat) (sel : Int) (rt : Nat),
        (s.participants.map Participant.userId).Nodup →
        AnswersNodup s →
        AnswersNodup (recordAnswer s uid qi sel rt).1) ∧
    (∀ (s : QuizSession) (uid : String) (sel : Int) (now : Nat) (p : Participant) (q : Question),
        s.started = true →
        findParticipant s.participants uid = some p →
        s.questionClosed = false →
        s.quiz.questions.get? s.currentQuestionIndex.toNat = some q →
        0 ≤ sel →
        sel < (q.options.length : Int) →
        (p.answers.lookup s.currentQuestionIndex.toNat).isSome = true →
        handleAnswer s uid s.currentQuestionIndex sel now =
          (s, [Event.error "You have already answered this question."])) := by
  refine ⟨recordAnswer_reject_of_answered, ?_, ?_⟩
  · intro s uid qi sel rt huid hans
    cases hfp : findParticipant s.participants uid with
    | none =>
      unfold recordAnswer
      rw [hfp]
      exact hans
    | some p =>
      by_cases hdup : (p.answers.lookup qi).isSome
      · rw [recordAnswer_reject_of_answered s uid qi sel rt p hfp hdup]
        exact hans
      · cases hq : s.quiz.questions.get? qi with
        | none =>
          unfold recordAnswer
          rw [hfp]
          simp only [Bool.not_eq_true] at hdup
          simp only [hdup, Bool.false_eq_true, if_false, hq]
          exact hans
        | some q =>
          rw [recordAnswer_success_eq s uid qi sel rt p q hfp
            (by simp only [Bool.not_eq_true] at hdup; exact hdup) hq]
          intro p2 hp2
          simp only [updateParticipant, List.mem_map] at hp2
          obtain ⟨p0, hp0, rfl⟩ := hp2
          by_cases he : p0.userId = uid
          · have hp0p : p0 = p := by
              refine List.inj_on_of_nodup_map huid hp0 (List.mem_of_find?_eq_some hfp) ?_
              have := List.find?_some hfp
              simp only [decide_eq_true_eq] at this
              rw [he, this]
            subst hp0p
            have hnotmem : qi ∉ p0.answers.map Prod.fst := by
              intro hmem
              exact absurd (lookup_isSome_of_mem_keys p0.answers qi hmem) hdup
            have hnd := hans p0 hp0
            simp [he, applyAnswer, List.nodup_append, hnd, hnotmem]
          · simpa [he, applyAnswer] using hans p0 hp0
  · intro s uid sel now p q hstart hfp hclosed hq hsel0 hselLt hdup
    unfold handleAnswer
    simp only [List.get?_eq_getElem?] at hq
    have hra := recordAnswer_reject_of_answered s uid s.currentQuestionIndex.toNat sel
      (now - s.questionStartedAt) p hfp hdup
    simp [hstart, hfp, hclosed, hq, hra, not_lt.mpr hsel0, not_le.mpr hselLt]

/-- C2 witness: alice already answered question 0 of `exSession`, so a
second `recordAnswer` and a second `quiz:answer` both reject and leave the
session unchanged, while ledgers keep distinct keys after bob records. -/
theorem answer_recorded_at_most_once_witness :
    recordAnswer exSession "alice" 0 2 50 = (exSession, none) ∧
    AnswersNodup (recordAnswer exSession "bob" 0 1 400).1 ∧
    handleAnswer exSession "alice" exSession.currentQuestionIndex 2 1800 =
      (exSession, [Event.error "You have already answered this question."]) :=
  ⟨answer_recorded_at_most_once.1 exSession "alice" 0 2 50 exAnswered (by decide) (by decide),
   answer_recorded_at_most_once.2.1 exSession "bob" 0 1 400 (by decide) (by decide),
   answer_recorded_at_most_once.2.2 exSession "alice" 2 1800 exAnswered exQ1 (by decide)
     (by decide) (by decide) (by decide) (by decide) (by decide) (by decide)⟩

/-- C7: an accepted answer bumps the score of the submitter by exactly 1 and adds
the response time to `totalResponseTimeMs` when the selected option equals
the correct index of the question, and leaves both fields unchanged otherwise;
the answer ledger gains exactly the new record either way. -/
theorem scoring_correct_answers_only (s : QuizSession) (uid : String) (qi : Nat)
    (sel : Int) (rt : Nat) (p : Participant) (q : Question)
    (h1 : findParticipant s.participants uid = some p)
    (h2 : (p.answers.lookup qi).isSome = false)
    (hq : s.quiz.questions.get? qi = some q) :
    (recordAnswer s uid qi sel rt).2 =
      some (decide (sel = (q.correctIndex : Int)), q.correctIndex) ∧
    findParticipant (recordAnswer s uid qi sel rt).1.participants uid = some
      { p with
        score := if sel = (q.correctIndex : Int) then p.score + 1 else p.score,
        totalResponseTimeMs :=
          if sel = (q.correctIndex : Int) then p.totalResponseTimeMs + rt
          else p.totalResponseTimeMs,
        answers := p.answers ++ [(qi,
          { selectedIndex := sel,
            isCorrect := decide (sel = (q.correctIndex : Int)),
            responseTimeMs := rt })] } := by
  rw [recordAnswer_success_eq s uid qi sel rt p q h1 h2 hq]
  refine ⟨rfl, ?_⟩
  have hff := findParticipant_update_self s.participants uid (applyAnswer qi sel rt q)
    (fun p0 => rfl)
  rw [hff, h1]
  rfl

/-- C7 witness: bob answers question 0 of `exSession` with option 1
(correct, 444 ms) — score goes 0 → 1 and time 0 → 444; alice answers
question 1 with option 1 (incorrect) — score and time unchanged. -/
theorem scoring_correct_answers_only_witness :
    ((recordAnswer exSession "bob" 0 1 444).2 = some (true, 1) ∧
      findParticipant (recordAnswer exSession "bob" 0 1 444).1.participants "bob" = some
        { userId := "bob", score := 1, totalResponseTimeMs := 444,
          answers := [(0, { selectedIndex := 1, isCorrect := true, responseTimeMs := 444 })] }) ∧
    ((recordAnswer exSession "alice" 1 1 200).2 = some (false, 0) ∧
      findParticipant (recordAnswer exSession "alice" 1 1 200).1.participants "alice" = some
        { userId := "alice", score := 1, totalResponseTimeMs := 700,
          answers := [(0, { selectedIndex := 1, isCorrect := true, responseTimeMs := 700 }),
                      (1, { selectedIndex := 1, isCorrect := false, responseTimeMs := 200 })] }) := by
  constructor
  · have h := scoring_correct_answers_only exSession "bob" 0 1 444 exFresh exQ1
      (by decide) (by decide) (by decide)
    simpa [exFresh, exQ1] using h
  · have h := scoring_correct_answers_only exSession "alice" 1 1 200 exAnswered exQ2
      (by decide) (by decide) (by decide)
    simpa [exAnswered, exQ2] using h

/-- C8: `startQuizSession` is idempotent and the registry keeps at most one
session per quiz id: a start signal for an already-registered id leaves the
registry unchanged and emits nothing; a first start registers exactly the
new session and emits exactly one `quiz:announced` with
{quizId, title, groupId, question count}; registry keys stay distinct. -/
theorem session_registry_idempotent_start :
    (∀ (reg : List (String × QuizSession)) (quiz : Quiz),
        (reg.lookup quiz.id).isSome = true → startQuizSession reg quiz = (reg, [])) ∧
    (∀ (reg : List (String × QuizSession)) (quiz : Quiz),
        (reg.lookup quiz.id).isSome = false →
        startQuizSession reg quiz = (reg ++ [(quiz.id, mkSession quiz)],
          [Event.announced quiz.id quiz.title quiz.groupId quiz.questions.length])) ∧
    (∀ (reg : List (String × QuizSession)) (quiz : Quiz),
        (reg.map Prod.fst).Nodup → ((startQuizSession reg quiz).1.map Prod.fst).Nodup) := by
  refine ⟨?_, ?_, ?_⟩
  · intro reg quiz h
    unfold startQuizSession
    simp [h]
  · intro reg quiz h
    unfold startQuizSession
    simp [h]
  · intro reg quiz hnd
    unfold startQuizSession
    by_cases h : (reg.lookup quiz.id).isSome
    · simp [h, hnd]
    · have hnotmem : quiz.id ∉ reg.map Prod.fst := by
        intro hmem
        exact h (lookup_isSome_of_mem_keys reg quiz.id hmem)
      simp only [h, Bool.false_eq_true, if_false, List.map_append, List.map_cons,
        List.map_nil, List.nodup_append]
      refine ⟨hnd, by simp, ?_⟩
      intro a ha
      simp only [List.mem_singleton]
      intro heq
      exact hnotmem (heq ▸ ha)

/-- C8 witness: starting `exQuiz` against a registry already holding its id
is a no-op with no announcement; starting it against the empty registry
registers the fresh session and announces exactly once; keys stay distinct. -/
theorem session_registry_idempotent_start_witness :
    startQuizSession [("quiz-1", mkSession exQuiz)] exQuiz =
      ([("quiz-1", mkSession exQuiz)], []) ∧
    startQuizSession [] exQuiz = ([("quiz-1", mkSession exQuiz)],
      [Event.announced "quiz-1" "Demo" "group-1" 2]) ∧
    ((startQuizSession [("quiz-1", mkSession exQuiz)] exQuiz).1.map Prod.fst).Nodup := by
  refine ⟨session_registry_idempotent_start.1 [("quiz-1", mkSession exQuiz)] exQuiz (by decide),
    ?_, session_registry_idempotent_start.2.2 [("quiz-1", mkSession exQuiz)] exQuiz (by decide)⟩
  have h := session_registry_idempotent_start.2.1 [] exQuiz (by decide)
  simpa [exQuiz] using h

theorem any_key_eq_false_of_countKey_zero (l : List (Nat × QuestionStats)) (k : Nat)
    (h : countKey l k = 0) : (l.any (fun p => p.1 = k)) = false := by
  simp only [countKey, List.countP_eq_zero] at h
  simp only [List.any_eq_false]
  intro x hx
  simpa using h x hx

theorem countKey_setStats_of_zero (l : List (Nat × QuestionStats)) (k : Nat) (v : QuestionStats)
    (h : countKey l k = 0) : countKey (setStats l k v) k = 1 := by
  unfold setStats
  rw [any_key_eq_false_of_countKey_zero l k h]
  simp only [Bool.false_eq_true, if_false, countKey, List.countP_append]
  simp only [countKey] at h
  simp [h, List.countP_cons]

theorem closeQuestion_step (s : QuizSession) (q : Question)
    (h0 : 0 ≤ s.currentQuestionIndex)
    (hq : s.quiz.questions.get? s.currentQuestionIndex.toNat = some q)
    (hc : s.questionClosed = false) :
    closeQuestion s =
      ({ s with questionClosed := true,
                questionStats := setStats s.questionStats s.currentQuestionIndex.toNat
                  { optionCounts :=
                      (questionTally s.participants s.currentQuestionIndex.toNat q.options.length).1,
                    correctCount :=
                      (questionTally s.participants s.currentQuestionIndex.toNat q.options.length).2 } },
       [Event.questionResult s.quizId s.currentQuestionIndex.toNat q.correctIndex
         (questionTally s.participants s.currentQuestionIndex.toNat q.options.length).1
         (questionTally s.participants s.currentQuestionIndex.toNat q.options.length).2]) := by
  unfold closeQuestion
  simp only [List.get?_eq_getElem?] at hq
  simp [hc, h0, hq]

theorem closeQuestion_of_closed (s : QuizSession) (hc : s.questionClosed = true) :
    closeQuestion s = (s, []) := by
  unfold closeQuestion
  simp [hc]

/-- C3: `closeQuestion` is idempotent per question — after a first close of
the active question, a second immediate invocation is a no-op, the two
invocations produce exactly one `quiz:question-result` broadcast in total,
and exactly one `questionStats` entry exists for the question index. -/
theorem close_question_idempotent (s : QuizSession) (q : Question)
    (h0 : 0 ≤ s.currentQuestionIndex)
    (hq : s.quiz.questions.get? s.currentQuestionIndex.toNat = some q)
    (hc : s.questionClosed = false)
    (hs : countKey s.questionStats s.currentQuestionIndex.toNat = 0) :
    closeQuestion (closeQuestion s).1 = ((closeQuestion s).1, []) ∧
    ((closeQuestion s).2 ++ (closeQuestion (closeQuestion s).1).2).countP
      Event.isQuestionResult = 1 ∧
    countKey (closeQuestion (closeQuestion s).1).1.questionStats
      s.currentQuestionIndex.toNat = 1 := by
  rw [closeQuestion_step s q h0 hq hc]
  have hsecond := closeQuestion_of_closed
    ({ s with questionClosed := true,
              questionStats := setStats s.questionStats s.currentQuestionIndex.toNat
                { optionCounts :=
                    (questionTally s.participants s.currentQuestionIndex.toNat q.options.length).1,
                  correctCount :=
                    (questionTally s.participants s.currentQuestionIndex.toNat q.options.length).2 } })
    rfl
  refine ⟨hsecond, ?_, ?_⟩
  · rw [hsecond]
    simp [Event.isQuestionResult]
  · rw [hsecond]
    exact countKey_setStats_of_zero _ _ _ hs

/-- C3 witness: closing question 0 of `exSession` twice — the second call
returns the state unchanged with no events; one broadcast, one stats entry. -/
theorem close_question_idempotent_witness :
    closeQuestion (closeQuestion exSession).1 = ((closeQuestion exSession).1, []) ∧
    ((closeQuestion exSession).2 ++ (closeQuestion (closeQuestion exSession).1).2).countP
      Event.isQuestionResult = 1 ∧
    countKey (closeQuestion (closeQuestion exSession).1).1.questionStats
      exSession.currentQuestionIndex.toNat = 1 :=
  close_question_idempotent exSession exQ1 (by decide) (by decide) (by decide) (by decide)

theorem handleLock_step (s : QuizSession) (uid role : String) (now : Nat) (q : Question)
    (hnl : s.locked = false)
    (hauth : uid = s.creatorId ∨ role = "FACULTY" ∨ role = "ADMIN")
    (hq : s.quiz.questions.get? 0 = some q) :
    handleLock s uid role now true =
      ({ s with locked := true, currentQuestionIndex := 0, questionStartedAt := now,
                questionClosed := false, started := true, questionTimer := true },
       [Event.lockedEvt s.quizId (s.participants.map (fun p => p.userId)).length
          (s.participants.map (fun p => p.userId)),
        Event.question s.quizId 0 s.quiz.questions.length q.text q.options q.timeLimit]) := by
  unfold handleLock
  have hna : ¬(uid ≠ s.creatorId ∧ role ≠ "FACULTY" ∧ role ≠ "ADMIN") := by
    tauto
  simp only [List.get?_eq_getElem?] at hq
  simp [hnl, hna, emitQuestion, hq]

/-- C6: lock is one-way. With an authorized caller on an unlocked session
holding at least one question, the first `quiz:lock` sets `locked`, emits
the `quiz:locked` roster broadcast, and starts the question loop at
index 0; any second `quiz:lock` on the resulting session — by any caller —
is rejected with the "already locked and running" state error, changing
nothing and emitting no further question. -/
theorem lock_one_way (s : QuizSession) (uid role : String) (now : Nat) (q : Question)
    (hnl : s.locked = false)
    (hauth : uid = s.creatorId ∨ role = "FACULTY" ∨ role = "ADMIN")
    (hq : s.quiz.questions.get? 0 = some q) :
    (handleLock s uid role now true).1.locked = true ∧
    (handleLock s uid role now true).1.started = true ∧
    (handleLock s uid role now true).1.currentQuestionIndex = 0 ∧
    (handleLock s uid role now true).2 =
      [Event.lockedEvt s.quizId (s.participants.map (fun p => p.userId)).length
         (s.participants.map (fun p => p.userId)),
       Event.question s.quizId 0 s.quiz.questions.length q.text q.options q.timeLimit] ∧
    (∀ (uid2 role2 : String) (now2 : Nat) (so2 : Bool),
        handleLock (handleLock s uid role now true).1 uid2 role2 now2 so2 =
          ((handleLock s uid role now true).1,
           [Event.error "Quiz is already locked and running."])) := by
  rw [handleLock_step s uid role now q hnl hauth hq]
  refine ⟨rfl, rfl, rfl, rfl, ?_⟩
  intro uid2 role2 now2 so2
  unfold handleLock
  simp

/-- C6 witness: the creator locks the fresh two-participant lobby of
`exQuiz`; a repeated lock by an admin is rejected with the state error and
no second `quiz:question` for index 0. -/
theorem lock_one_way_witness :
    (handleLock exLobby "creator-1" "STUDENT" 2000 true).1.locked = true ∧
    (handleLock exLobby "creator-1" "STUDENT" 2000 true).2 =
      [Event.lockedEvt "quiz-1" 2 ["alice", "bob"],
       Event.question "quiz-1" 0 2 "2+2?" ["3", "4", "5"] 10] ∧
    handleLock (handleLock exLobby "creator-1" "STUDENT" 2000 true).1 "admin-1" "ADMIN" 9000 true =
      ((handleLock exLobby "creator-1" "STUDENT" 2000 true).1,
       [Event.error "Quiz is already locked and running."]) := by
  have h := lock_one_way exLobby "creator-1" "STUDENT" 2000 exQ1 (by decide)
    (Or.inl (by decide)) (by decide)
  exact ⟨h.1, by simpa [exLobby, exQuiz, exQ1] using h.2.2.2.1,
    h.2.2.2.2 "admin-1" "ADMIN" 9000 true⟩

/-- The leaderboard order carried over to the emitted entries: higher score
first, ties by ascending total response time. -/
def entryLE (a b : LeaderboardEntry) : Prop :=
  b.score < a.score ∨ (b.score = a.score ∧ a.totalResponseTimeMs ≤ b.totalResponseTimeMs)

theorem withRanks_map_triple : ∀ (i : Nat) (l : List Participant),
    (withRanks i l).map (fun e => (e.userId, e.score, e.totalResponseTimeMs)) =
      l.map (fun p => (p.userId, p.score, p.totalResponseTimeMs))
  | _, [] => rfl
  | i, p :: ps => by
    simp [withRanks, withRanks_map_triple (i + 1) ps]

theorem withRanks_map_rank : ∀ (i : Nat) (l : List Participant),
    (withRanks i l).map LeaderboardEntry.rank = List.range' (i + 1) l.length
  | _, [] => rfl
  | i, p :: ps => by
    simp [withRanks, withRanks_map_rank (i + 1) ps, List.range'_succ]

theorem exists_of_mem_withRanks : ∀ (i : Nat) (l : List Participant)
    (e : LeaderboardEntry), e ∈ withRanks i l →
    ∃ p ∈ l, e.score = p.score ∧ e.totalResponseTimeMs = p.totalResponseTimeMs
  | _, [], e, h => by simp [withRanks] at h
  | i, p :: ps, e, h => by
    simp only [withRanks, List.mem_cons] at h
    rcases h with h | h
    · exact ⟨p, List.mem_cons_self p ps, by simp [h]⟩
    · obtain ⟨p2, hp2, he⟩ := exists_of_mem_withRanks (i + 1) ps e h
      exact ⟨p2, List.mem_cons_of_mem p hp2, he⟩

theorem withRanks_pairwise : ∀ (i : Nat) (l : List Participant),
    l.Pairwise lbLE → (withRanks i l).Pairwise entryLE
  | _, [], _ => List.Pairwise.nil
  | i, p :: ps, h => by
    rw [List.pairwise_cons] at h
    rw [withRanks, List.pairwise_cons]
    refine ⟨?_, withRanks_pairwise (i + 1) ps h.2⟩
    intro e he
    obtain ⟨p2, hp2, hsc, ht⟩ := exists_of_mem_withRanks (i + 1) ps e he
    have := h.1 p2 hp2
    unfold lbLE at this
    unfold entryLE
    simp only [hsc, ht]
    exact this

/-- The three participants of the concrete example in the claim
(scores [3,3,1], totalResponseTimeMs [500,300,100]). -/
def exP1 : Participant :=
  { userId := "participant-1", score := 3, totalResponseTimeMs := 500, answers := [] }

def exP2 : Participant :=
  { userId := "participant-2", score := 3, totalResponseTimeMs := 300, answers := [] }

def exP3 : Participant :=
  { userId := "participant-3", score := 1, totalResponseTimeMs := 100, answers := [] }

/-- C4: the final leaderboard is a reordering of the participants sorted by
score descending with ties broken by ascending `totalResponseTimeMs`, ranks
are the dense 1-based positions `1..n` in sorted order, `quiz:ended` (on a
successful save) carries exactly this leaderboard, and on the
concrete example of the claim (scores [3,3,1], times [500,300,100]) the order is
participant-2, participant-1, participant-3. -/
theorem leaderboard_sorted_ranked :
    (∀ ps : List Participant,
        ((rankParticipants ps).map (fun e => (e.userId, e.score, e.totalResponseTimeMs))).Perm
          (ps.map (fun p => (p.userId, p.score, p.totalResponseTimeMs)))) ∧
    (∀ ps : List Participant, (rankParticipants ps).Pairwise entryLE) ∧
    (∀ ps : List Participant,
        (rankParticipants ps).map LeaderboardEntry.rank = List.range' 1 ps.length) ∧
    (∀ s : QuizSession,
        (endQuiz s true).1 = [Event.ended s.quizId (rankParticipants s.participants)]) ∧
    rankParticipants [exP1, exP2, exP3] =
      [{ rank := 1, userId := "participant-2", score := 3, totalResponseTimeMs := 300 },
       { rank := 2, userId := "participant-1", score := 3, totalResponseTimeMs := 500 },
       { rank := 3, userId := "participant-3", score := 1, totalResponseTimeMs := 100 }] := by
  refine ⟨?_, ?_, ?_, fun s => rfl, by decide⟩
  · intro ps
    rw [rankParticipants, withRanks_map_triple]
    exact (List.perm_insertionSort lbLE ps).map _
  · intro ps
    exact withRanks_pairwise 0 _ (List.sorted_insertionSort lbLE ps)
  · intro ps
    rw [rankParticipants, withRanks_map_rank]
    rw [List.length_insertionSort]

theorem bump_length (l : List Nat) (i : Nat) : (bump l i).length = l.length := by
  simp [bump]

theorem bump_sum (l : List Nat) (i : Nat) (h : i < l.length) :
    (bump l i).sum = l.sum + 1 := by
  induction l generalizing i with
  | nil => simp at h
  | cons a l ih =>
    cases i with
    | zero => simp [bump, List.sum_cons]; omega
    | succ n =>
      have hn : n < l.length := by simpa using h
      have := ih n hn
      simp only [bump, List.getD_cons_succ, List.set_cons_succ, List.sum_cons] at this ⊢
      omega

theorem tallyLoop_sum (qi n : Nat) : ∀ (ps : List Participant) (counts : List Nat) (c : Nat),
    counts.length = n →
    (∀ p ∈ ps, ∀ ans, p.answers.lookup qi = some ans →
      0 ≤ ans.selectedIndex ∧ ans.selectedIndex < (n : Int)) →
    (tallyLoop qi n ps counts c).1.sum =
      counts.sum + ps.countP (fun p => (p.answers.lookup qi).isSome)
  | [], counts, c, _, _ => by simp [tallyLoop]
  | p :: ps, counts, c, hlen, hrange => by
    cases hl : p.answers.lookup qi with
    | none =>
      have ih := tallyLoop_sum qi n ps counts c hlen
        (fun p2 hp2 => hrange p2 (List.mem_cons_of_mem p hp2))
      simp [tallyLoop, hl, List.countP_cons, ih]
    | some ans =>
      have hr := hrange p (List.mem_cons_self p ps) ans hl
      have hlt : ans.selectedIndex.toNat < counts.length := by
        rw [hlen]
        omega
      have ih := tallyLoop_sum qi n ps (bump counts ans.selectedIndex.toNat)
        (if ans.isCorrect then c + 1 else c)
        (by rw [bump_length, hlen])
        (fun p2 hp2 => hrange p2 (List.mem_cons_of_mem p hp2))
      simp only [tallyLoop, hl, hr, and_self, if_true, ih, bump_sum counts _ hlt,
        List.countP_cons]
      simp [hl]
      omega

theorem questionTally_sum (ps : List Participant) (qi n : Nat)
    (hrange : ∀ p ∈ ps, ∀ ans, p.answers.lookup qi = some ans →
      0 ≤ ans.selectedIndex ∧ ans.selectedIndex < (n : Int)) :
    (questionTally ps qi n).1.sum = ps.countP (fun p => (p.answers.lookup qi).isSome) := by
  unfold questionTally
  rw [tallyLoop_sum qi n ps _ 0 (by simp) hrange]
  simp

theorem lookup_map_overwrite (k : Nat) (v : QuestionStats) :
    ∀ l : List (Nat × QuestionStats), l.any (fun p => p.1 = k) = true →
    ((l.map (fun p => if p.1 = k then (k, v) else p)).lookup k) = some v
  | [], h => by simp at h
  | hd :: tl, h => by
    by_cases hk : hd.1 = k
    · simp only [List.map_cons]
      rw [show ((if hd.1 = k then (k, v) else hd) : Nat × QuestionStats) = (k, v) from
        if_pos hk]
      simp [List.lookup]
    · have htl : tl.any (fun p => p.1 = k) = true := by
        simp only [List.any_cons, hk] at h
        simpa using h
      have hbeq : (k == hd.1) = false := by
        simp
        exact fun h2 => hk h2.symm
      simp only [List.map_cons]
      rw [show ((if hd.1 = k then (k, v) else hd) : Nat × QuestionStats) = hd from
        if_neg hk]
      simp only [List.lookup, hbeq]
      exact lookup_map_overwrite k v tl htl

theorem lookup_append_of_no_key (k : Nat) (v : QuestionStats) :
    ∀ l : List (Nat × QuestionStats), l.any (fun p => p.1 = k) = false →
    ((l ++ [(k, v)]).lookup k) = some v
  | [], _ => by simp [List.lookup]
  | hd :: tl, h => by
    simp only [List.any_cons, Bool.or_eq_false_iff] at h
    have hk : ¬hd.1 = k := by simpa using h.1
    have hbeq : (k == hd.1) = false := by
      simp
      exact fun h2 => hk h2.symm
    simp only [List.cons_append, List.lookup, hbeq]
    exact lookup_append_of_no_key k v tl h.2

theorem lookup_setStats_self (l : List (Nat × QuestionStats)) (k : Nat) (v : QuestionStats) :
    (setStats l k v).lookup k = some v := by
  unfold setStats
  by_cases h : l.any (fun p => p.1 = k) = true
  · simp only [h, if_true]
    exact lookup_map_overwrite k v l h
  · have h2 : l.any (fun p => p.1 = k) = false := by
      simp only [Bool.not_eq_true] at h
      exact h
    simp only [h2, Bool.false_eq_true, if_false]
    exact lookup_append_of_no_key k v l h2

/-- C9: when the active question closes, the stored stats
entry sums its `optionCounts` to exactly the number of participants holding an
AnswerRecord for that question (all live-accepted records are in option
range), which never exceeds the participant count; the persisted snapshot
carries that same entry; participants without a record contribute to no
bucket. -/
theorem option_counts_sum_answered (s : QuizSession) (q : Question) (qi : Nat)
    (hcur : s.currentQuestionIndex = (qi : Int))
    (hq : s.quiz.questions.get? qi = some q)
    (hc : s.questionClosed = false)
    (hrange : ∀ p ∈ s.participants, ∀ ans, p.answers.lookup qi = some ans →
        0 ≤ ans.selectedIndex ∧ ans.selectedIndex < (q.options.length : Int)) :
    ∃ st, (closeQuestion s).1.questionStats.lookup qi = some st ∧
      st.optionCounts.sum = s.participants.countP (fun p => (p.answers.lookup qi).isSome) ∧
      st.optionCounts.sum ≤ s.participants.length ∧
      (persistedStats (closeQuestion s).1).get? qi =
        some ((closeQuestion s).1.questionStats.lookup qi) := by
  have h0 : 0 ≤ s.currentQuestionIndex := by rw [hcur]; exact Int.natCast_nonneg qi
  have htn : s.currentQuestionIndex.toNat = qi := by rw [hcur]; exact Int.toNat_natCast qi
  have hq2 : s.quiz.questions.get? s.currentQuestionIndex.toNat = some q := by
    rw [htn]; exact hq
  rw [closeQuestion_step s q h0 hq2 hc]
  simp only [htn]
  refine ⟨_, lookup_setStats_self _ _ _, ?_, ?_, ?_⟩
  · exact questionTally_sum s.participants qi q.options.length hrange
  · rw [questionTally_sum s.participants qi q.options.length hrange]
    exact List.countP_le_length _
  · have hlt : qi < s.quiz.questions.length := by
      rcases List.get?_eq_some.1 hq with ⟨h, _⟩
      exact h
    simp [persistedStats, List.get?_eq_getElem?, List.getElem?_map, List.getElem?_range, hlt]

/-- C9 witness: closing question 0 of `exSession` (alice answered option 1,
bob never answered) stores optionCounts summing to 1 — the one answering
participant of the two. -/
theorem option_counts_sum_answered_witness :
    ∃ st, (closeQuestion exSession).1.questionStats.lookup 0 = some st ∧
      st.optionCounts.sum =
        exSession.participants.countP (fun p => (p.answers.lookup 0).isSome) ∧
      st.optionCounts.sum ≤ exSession.participants.length ∧
      (persistedStats (closeQuestion exSession).1).get? 0 =
        some ((closeQuestion exSession).1.questionStats.lookup 0) := by
  refine option_counts_sum_answered exSession exQ1 0 (by decide) (by decide) (by decide) ?_
  intro p hp ans hans
  simp only [exSession, List.mem_cons, List.not_mem_nil, or_false] at hp
  rcases hp with rfl | rfl
  · simp [exAnswered, List.lookup] at hans
    subst hans
    decide
  · simp [exFresh, List.lookup] at hans

theorem isAnsweredByAll_after_update (s2 : QuizSession) (ps : List Participant)
    (uid : String) (qi : Nat) (sel : Int) (rt : Nat) (q : Question)
    (hps : s2.participants = updateParticipant ps uid (applyAnswer qi sel rt q))
    (hne : ps ≠ [])
    (hall : ∀ p2 ∈ ps, p2.userId ≠ uid → (p2.answers.lookup qi).isSome = true) :
    isQuestionAnsweredByAll s2 qi = true := by
  unfold isQuestionAnsweredByAll
  rw [hps]
  simp only [updateParticipant, List.length_map]
  have hlen : ¬ps.length = 0 := by
    simpa [List.length_eq_zero] using hne
  rw [if_neg hlen, List.all_eq_true]
  intro x hx
  obtain ⟨p0, hp0, rfl⟩ := List.mem_map.1 hx
  by_cases he : p0.userId = uid
  · simp [he, applyAnswer, lookup_append_self_isSome]
  · simpa [he] using hall p0 hp0 he

/-- C5: the early-close law. (1) If an accepted answer completes the set —
every other admitted participant already holds a record for the active
question — the handler cancels the deadline timer, marks the question
closed, and emits exactly one `quiz:question-result`. (2) Once the question
is closed, any answer for that index — at any timestamp, in particular one
before the original deadline — is rejected with the time-up error and the
session is unchanged. -/
theorem early_close_all_answered :
    (∀ (s : QuizSession) (uid : String) (qi : Nat) (sel : Int) (now : Nat)
        (p : Participant) (q : Question),
        s.started = true →
        s.currentQuestionIndex = (qi : Int) →
        findParticipant s.participants uid = some p →
        s.questionClosed = false →
        s.quiz.questions.get? qi = some q →
        0 ≤ sel → sel < (q.options.length : Int) →
        (p.answers.lookup qi).isSome = false →
        (∀ p2 ∈ s.participants, p2.userId ≠ uid → (p2.answers.lookup qi).isSome = true) →
        ((handleAnswer s uid (qi : Int) sel now).1.questionClosed = true ∧
         (handleAnswer s uid (qi : Int) sel now).1.questionTimer = false ∧
         (handleAnswer s uid (qi : Int) sel now).2.countP Event.isQuestionResult = 1)) ∧
    (∀ (s : QuizSession) (uid : String) (qi : Nat) (sel : Int) (now : Nat),
        s.started = true →
        s.currentQuestionIndex = (qi : Int) →
        (findParticipant s.participants uid).isSome = true →
        s.questionClosed = true →
        handleAnswer s uid (qi : Int) sel now =
          (s, [Event.error "Time is up for this question."])) := by
  constructor
  · intro s uid qi sel now p q hstart hcur hfp hclosed hq hsel0 hselLt hnew hall
    have hne : s.participants ≠ [] := by
      intro h
      rw [findParticipant, h] at hfp
      simp at hfp
    have hra := recordAnswer_success_eq s uid qi sel (now - s.questionStartedAt) p q hfp hnew hq
    have hq2 : s.quiz.questions.get? s.currentQuestionIndex.toNat = some q := by
      rw [hcur, Int.toNat_natCast]
      exact hq
    unfold handleAnswer
    rw [hcur]
    simp only [hstart, Bool.not_true, Bool.false_eq_true, if_false, ne_eq,
      not_true_eq_false, hfp, Option.isNone_some, hclosed, Int.toNat_natCast, hq,
      not_lt.mpr hsel0, false_or, not_le.mpr hselLt, if_false, hra]
    rw [if_pos ⟨isAnsweredByAll_after_update _ s.participants uid qi sel
      (now - s.questionStartedAt) q rfl hne hall, not_false⟩]
    have hclose := closeQuestion_step
      { s with
        participants := updateParticipant s.participants uid
          (applyAnswer qi sel (now - s.questionStartedAt) q),
        questionTimer := false, questionClosed := false, started := true } q
      (by simp only [hcur]; exact Int.natCast_nonneg qi)
      (by simp only [hcur, Int.toNat_natCast]; exact hq)
      rfl
    rw [hclose]
    rw [findParticipant_update_self s.participants uid
      (applyAnswer qi sel (now - s.questionStartedAt) q) (fun p0 => rfl), hfp]
    refine ⟨rfl, rfl, ?_⟩
    simp [Event.isQuestionResult, List.countP_cons]
  · intro s uid qi sel now hstart hcur hfp hclosed
    unfold handleAnswer
    rw [hcur]
    cases hfp2 : findParticipant s.participants uid with
    | none => rw [hfp2] at hfp; simp at hfp
    | some p => simp [hstart, hfp2, hclosed]

/-- C5 witness: bob completes the answer set for question 0 of `exSession` —
the question closes at once with the timer cleared and one result
broadcast; afterwards a re-submission by alice at a timestamp well inside the
10 s limit is rejected with the time-up error. -/
theorem early_close_all_answered_witness :
    ((handleAnswer exSession "bob" ((0 : Nat) : Int) 0 3000).1.questionClosed = true ∧
     (handleAnswer exSession "bob" ((0 : Nat) : Int) 0 3000).1.questionTimer = false ∧
     (handleAnswer exSession "bob" ((0 : Nat) : Int) 0 3000).2.countP
       Event.isQuestionResult = 1) ∧
    handleAnswer (closeQuestion exSession).1 "alice" ((0 : Nat) : Int) 1 1500 =
      ((closeQuestion exSession).1, [Event.error "Time is up for this question."]) :=
  ⟨early_close_all_answered.1 exSession "bob" 0 0 3000 exFresh exQ1 (by decide) (by decide)
     (by decide) (by decide) (by decide) (by decide) (by decide) (by decide) (by decide),
   early_close_all_answered.2 (closeQuestion exSession).1 "alice" 0 1 1500 (by decide)
     (by decide) (by decide) (by decide)⟩

theorem emitQuestion_some (s : QuizSession) (idx now : Nat) (saveOk : Bool) (q : Question)
    (hget : s.quiz.questions.get? idx = some q) :
    emitQuestion s idx now saveOk =
      ({ s with currentQuestionIndex := (idx : Int), questionStartedAt := now,
                questionClosed := false, started := true, questionTimer := true },
       [Event.question s.quizId idx s.quiz.questions.length q.text q.options q.timeLimit],
       none) := by
  unfold emitQuestion
  rw [hget]

theorem emitQuestion_none (s : QuizSession) (idx now : Nat)
    (hget : s.quiz.questions.get? idx = none) :
    emitQuestion s idx now true =
      (s, [Event.ended s.quizId (rankParticipants s.participants)], some true) := by
  unfold emitQuestion
  rw [hget]
  rfl

theorem runNoAnswers_empty_run (qz : Quiz) (qid : String) :
    ∀ (fuel idx : Nat) (s : QuizSession),
      s.quiz = qz → s.quizId = qid → s.participants = [] →
      qz.questions.length - idx < fuel → idx ≤ qz.questions.length →
      (runNoAnswers true fuel s idx).1.countP Event.isQuestionResult =
        qz.questions.length - idx ∧
      (runNoAnswers true fuel s idx).1.countP Event.isEnded = 1 ∧
      Event.ended qid [] ∈ (runNoAnswers true fuel s idx).1 ∧
      (runNoAnswers true fuel s idx).2 = true
  | 0, idx, s, _, _, _, hfu, _ => absurd hfu (by omega)
  | fuel + 1, idx, s, hqz, hqid, hps, hfu, hidx => by
    cases hget : qz.questions.get? idx with
    | none =>
      have hlen : qz.questions.length ≤ idx := List.get?_eq_none.1 hget
      have hget2 : s.quiz.questions.get? idx = none := by rw [hqz]; exact hget
      have he := emitQuestion_none s idx 0 hget2
      rw [hps, hqid] at he
      unfold runNoAnswers
      rw [he]
      refine ⟨?_, ?_, ?_, rfl⟩
      · simp only [rankParticipants, List.insertionSort, withRanks]
        simp [Event.isQuestionResult]
        omega
      · simp [rankParticipants, List.insertionSort, withRanks, Event.isEnded]
      · simp [rankParticipants, List.insertionSort, withRanks]
    | some q =>
      have hlt : idx < qz.questions.length := by
        rcases List.get?_eq_some.1 hget with ⟨h, _⟩
        exact h
      have hget2 : s.quiz.questions.get? idx = some q := by rw [hqz]; exact hget
      have he := emitQuestion_some s idx 0 true q hget2
      have hclose : closeQuestion
          { s with currentQuestionIndex := (idx : Int), questionStartedAt := 0,
                   questionClosed := false, started := true, questionTimer := false } =
          ({ s with currentQuestionIndex := (idx : Int), questionStartedAt := 0,
                    questionTimer := false, questionClosed := true, started := true,
                    questionStats := setStats s.questionStats idx
                      { optionCounts := (questionTally s.participants idx q.options.length).1,
                        correctCount := (questionTally s.participants idx q.options.length).2 } },
           [Event.questionResult s.quizId idx q.correctIndex
              (questionTally s.participants idx q.options.length).1
              (questionTally s.participants idx q.options.length).2]) := by
        rw [closeQuestion_step _ q (Int.natCast_nonneg idx)
          (by simp only [Int.toNat_natCast]; exact hget2) rfl]
        rfl
      have hrec := runNoAnswers_empty_run qz qid fuel (idx + 1)
        (closeQuestion
          { s with currentQuestionIndex := (idx : Int), questionStartedAt := 0,
                   questionClosed := false, started := true, questionTimer := false }).1
        (by rw [hclose]; exact hqz)
        (by rw [hclose]; exact hqid)
        (by rw [hclose]; exact hps)
        (by omega) (by omega)
      simp only [hclose] at hrec
      unfold runNoAnswers
      rw [he]
      simp only [timerFire, Bool.false_eq_true, not_false_eq_true, if_true, hclose]
      refine ⟨?_, ?_, ?_, ?_⟩
      · simp only [List.countP_append, List.countP_cons, List.countP_nil, hrec.1]
        simp [Event.isQuestionResult]
        omega
      · simp only [List.countP_append, List.countP_cons, List.countP_nil, hrec.2.1]
        simp [Event.isQuestionResult, Event.isEnded, hrec.2.1]
      · simp only [List.mem_append]
        exact Or.inr hrec.2.2.1
      · exact hrec.2.2.2

/-- C10: with an empty participants map, `isQuestionAnsweredByAll` is false
for every question index, every `quiz:answer` is rejected with the session
unchanged (so answer-driven early close can never fire and only the
deadline timer closes questions), and the timer-driven run from index 0
still walks the entire question list — one `quiz:question-result` per
question — and finalises with the empty leaderboard broadcast before
evicting the session. -/
theorem zero_participants_timer_only :
    (∀ (s : QuizSession) (qi : Nat), s.participants = [] →
        isQuestionAnsweredByAll s qi = false) ∧
    (∀ (s : QuizSession) (uid : String) (qi sel : Int) (now : Nat), s.participants = [] →
        ∃ m, handleAnswer s uid qi sel now = (s, [Event.error m])) ∧
    (∀ s : QuizSession, s.participants = [] →
        (runNoAnswers true (s.quiz.questions.length + 1) s 0).1.countP
            Event.isQuestionResult = s.quiz.questions.length ∧
        (runNoAnswers true (s.quiz.questions.length + 1) s 0).1.countP Event.isEnded = 1 ∧
        Event.ended s.quizId [] ∈ (runNoAnswers true (s.quiz.questions.length + 1) s 0).1 ∧
        (runNoAnswers true (s.quiz.questions.length + 1) s 0).2 = true) := by
  refine ⟨?_, ?_, ?_⟩
  · intro s qi h
    unfold isQuestionAnsweredByAll
    rw [h]
    simp
  · intro s uid qi sel now hp
    have hfp : findParticipant s.participants uid = none := by rw [hp]; rfl
    by_cases h1 : s.started = true
    · by_cases h2 : s.currentQuestionIndex = qi
      · refine ⟨"You have not joined this quiz.", ?_⟩
        unfold handleAnswer
        simp [h1, h2, hfp]
      · refine ⟨"Wrong question index — this question is not active.", ?_⟩
        unfold handleAnswer
        simp [h1, h2]
    · have h1f : s.started = false := by simpa using h1
      refine ⟨"Questions have not started yet.", ?_⟩
      unfold handleAnswer
      simp [h1f]
  · intro s hp
    have h := runNoAnswers_empty_run s.quiz s.quizId (s.quiz.questions.length + 1) 0 s
      rfl rfl hp (by omega) (by omega)
    exact ⟨by simpa using h.1, h.2.1, h.2.2.1, h.2.2.2⟩

/-- An empty lobby locked by the creator: the question loop starts with no
participants admitted. -/
def exEmptyLocked : QuizSession :=
  (handleLock (mkSession exQuiz) "creator-1" "STUDENT" 0 true).1

/-- C10 witness: on the locked zero-participant session of `exQuiz`,
all-answered is false, an answer from a non-participant is rejected
unchanged, and the timer-only run emits one result per question and ends
with the empty leaderboard. -/
theorem zero_participants_timer_only_witness :
    isQuestionAnsweredByAll exEmptyLocked 0 = false ∧
    (∃ m, handleAnswer exEmptyLocked "carol" 0 0 500 = (exEmptyLocked, [Event.error m])) ∧
    ((runNoAnswers true (exEmptyLocked.quiz.questions.length + 1) exEmptyLocked 0).1.countP
        Event.isQuestionResult = exEmptyLocked.quiz.questions.length ∧
     (runNoAnswers true (exEmptyLocked.quiz.questions.length + 1) exEmptyLocked 0).1.countP
        Event.isEnded = 1 ∧
     Event.ended exEmptyLocked.quizId [] ∈
       (runNoAnswers true (exEmptyLocked.quiz.questions.length + 1) exEmptyLocked 0).1 ∧
     (runNoAnswers true (exEmptyLocked.quiz.questions.length + 1) exEmptyLocked 0).2 = true) :=
  ⟨zero_participants_timer_only.1 exEmptyLocked 0 (by decide),
   zero_participants_timer_only.2.1 exEmptyLocked "carol" 0 0 500 (by decide),
   zero_participants_timer_only.2.2 exEmptyLocked (by decide)⟩

end QuizEngine
